import Mathlib

/-!
# Verification of the face-registration service (`src/main.py`)

This file gives a shallow embedding of the two HTTP handlers of the
repository (`register_face` and `identify_face`) together with the POSIX
path-string functions they use (`os.path.join`, `os.path.dirname`,
`os.path.basename`), and proves the frozen claims about them.

Modelling conventions:

* Bytes are `List Nat`; image payloads and file contents are byte lists.
* The store below `DB_PATH` is modelled at the OS level as a finite map
  from component paths (`List String`, relative to `DB_PATH`) to contents,
  plus the set of directories that exist.  `os.path.join(DB_PATH, user_id)`
  corresponds to the component path `[user_id]` and the reference image of
  an identity to `[user_id, "face.jpg"]`.
* The path *strings* the code manipulates (in particular the identity
  string returned by `DeepFace.find` from which `identify_face` extracts
  the user id with `os.path.basename(os.path.dirname(...))`) are modelled
  faithfully by `joinPath`, `dirname`, `basename` below, which follow
  CPython's `posixpath.join`, `posixpath.dirname`, `posixpath.basename`.
* The external library `DeepFace` and the I/O primitives are oracles: each
  handler takes an environment record saying what every fallible step
  returns (`Except Exn _`), mirroring the `try/except` structure of the
  handlers.  `DeepFace.find` may additionally (re)create the cache file
  `representations_sface.pkl` under `DB_PATH`; that effect is part of the
  oracle.
-/

/-- The POSIX path separator used by `os.path` on the deployment target. -/
def sep : Char := '/'

/-- `os.path.basename` on char lists: the part of the path after the last
separator (CPython: `p[p.rfind(sep)+1:]`). -/
def basenameL (p : List Char) : List Char :=
  (p.reverse.takeWhile (· != sep)).reverse

/-- The raw head computed by `os.path.dirname`: the prefix of the path up to
and including the last separator (CPython: `p[:p.rfind(sep)+1]`). -/
def dirnameHead (p : List Char) : List Char :=
  (p.reverse.dropWhile (· != sep)).reverse

/-- Strip trailing separators (CPython: `head.rstrip(sep)`). -/
def rstripSep (p : List Char) : List Char :=
  (p.reverse.dropWhile (· == sep)).reverse

/-- `os.path.dirname` on char lists: the prefix up to the last separator,
with trailing separators stripped unless the result consists only of
separators or is empty. -/
def dirnameL (p : List Char) : List Char :=
  if dirnameHead p = [] then dirnameHead p
  else if (dirnameHead p).all (· == sep) then dirnameHead p
  else rstripSep (dirnameHead p)

/-- One step of `os.path.join` on char lists (CPython `posixpath.join`):
an absolute second argument replaces the path, otherwise the second
argument is appended, inserting a separator unless the path is empty or
already ends with one. -/
def joinOne (path b : List Char) : List Char :=
  if b.head? = some sep then b
  else if path = [] ∨ path.getLast? = some sep then path ++ b
  else path ++ sep :: b

/-- `os.path.basename` on strings. -/
def basename (p : String) : String := ⟨basenameL p.data⟩

/-- `os.path.dirname` on strings. -/
def dirname (p : String) : String := ⟨dirnameL p.data⟩

/-- Binary `os.path.join` on strings. -/
def joinPath (p b : String) : String := ⟨joinOne p.data b.data⟩

/-! ## The store under `DB_PATH` and the two handlers -/

/-- File contents (raw bytes). -/
abbrev Bytes := List Nat

/-- A path relative to `DB_PATH`, as a list of path components.
`os.path.join(DB_PATH, user_id)` is `[user_id]`;
`os.path.join(user_folder_path, "face.jpg")` is `[user_id, "face.jpg"]`. -/
abbrev FPath := List String

/-- The fixed filename of the reference image of an identity. -/
def faceFile : String := "face.jpg"

/-- The cache artifact DeepFace keeps under `DB_PATH` for the SFace model. -/
def reprFile : String := "representations_sface.pkl"

/-- The files below `DB_PATH`: an association list from component paths to
contents, newest entry first (a write shadows older entries). -/
abbrev FS := List (FPath × Bytes)

/-- Contents stored at `p`, if any. -/
def fsLookup (fs : FS) (p : FPath) : Option Bytes :=
  match fs with
  | [] => none
  | (q, b) :: rest => if q = p then some b else fsLookup rest p

/-- `open(p, "wb"); write(b)`: (over)write the file at `p`. -/
def fsWrite (fs : FS) (p : FPath) (b : Bytes) : FS := (p, b) :: fs

/-- `os.remove(p)`: delete the file at `p`. -/
def fsRemove (fs : FS) (p : FPath) : FS :=
  fs.filter (fun e => if e.1 = p then false else true)

/-- `os.path.exists(p)` restricted to files, which is all the handlers test. -/
def fsHas (fs : FS) (p : FPath) : Bool := (fsLookup fs p).isSome

/-- The state of the store under `DB_PATH`: which directories exist and
which files exist with which contents. -/
structure DBState where
  dirs : List FPath
  files : FS

/-- `os.makedirs(d, exist_ok=True)` for a directory directly under
`DB_PATH`. -/
def insertDir (ds : List FPath) (d : FPath) : List FPath :=
  if d ∈ ds then ds else d :: ds

/-- A Python exception, reduced to its message. -/
structure Exn where
  msg : String
deriving DecidableEq

/-- Responses of the `/register` handler: either the JSON body
`{"status": "success", "user_id": ...}` or an `HTTPException` with a
status code and a detail string, which FastAPI turns into an error
response with that status. -/
inductive RegisterResponse where
  | success (user_id : String)
  | httpError (status : Nat) (detail : String)
deriving DecidableEq

/-- Responses of the `/identify` handler: the JSON body
`{"status": "match_found", "user_id": ...}` or an `HTTPException`. -/
inductive IdentifyResponse where
  | matchFound (user_id : String)
  | httpError (status : Nat) (detail : String)
deriving DecidableEq

/-- Oracle for the fallible steps of one `register_face` call: what
`os.makedirs`, `await file.read()`, the `open/write`, and `os.remove`
would do on this call.  `partialBytes` is whatever ended up in the file
when the write raised mid-way (opening with `"wb"` truncates first). -/
structure RegisterEnv where
  makedirsExn : Option Exn
  readResult : Except Exn Bytes
  writeOutcome : Except Exn Unit
  partialBytes : Bytes
  removeExn : Option Exn

/-- One row of a DeepFace result dataframe; the handler only reads the
`identity` column, the path string of the matched reference image. -/
structure DFRow where
  identity : String
deriving DecidableEq

/-- Oracle for the fallible steps of one `identify_face` call:
`await file.read()`, the PIL decode (`Image.open(...).convert("RGB")` and
`np.array`), and `DeepFace.find`.  `find` returns a list of dataframes,
each a list of rows ranked best-first; as a side effect it may (re)build
the cache file `representations_sface.pkl` under `DB_PATH`
(`cacheWrite`). -/
structure IdentifyEnv where
  readResult : Except Exn Bytes
  decodeOutcome : Except Exn Unit
  cacheWrite : Option Bytes
  findResult : Except Exn (List (List DFRow))

/-- Detail string of the 500 error raised by `register_face`. -/
def registerErrDetail (e : Exn) : String :=
  "An internal error occurred during registration: " ++ e.msg

/-- Detail string of the 500 error raised by `identify_face`. -/
def identifyErrDetail (e : Exn) : String :=
  "An internal error occurred during identification: " ++ e.msg

/-- Detail string of the deliberate 404 raised by `identify_face`. -/
def noMatchDetail : String := "No matching face was found in the database."

/-- The `/register` handler (`register_face` in `src/main.py`), given the
oracle `env` for its fallible steps and the current store `st`.  Mirrors the
`try/except` body: the first raising step aborts the rest and yields the
`HTTPException(status_code=500, ...)` raised by the `except` clause; the
state keeps every mutation already performed. -/
def register_face (env : RegisterEnv) (st : DBState) (user_id : String) :
    DBState × RegisterResponse :=
  match env.makedirsExn with
  | some e => (st, .httpError 500 (registerErrDetail e))
  | none =>
    let st1 : DBState := { st with dirs := insertDir st.dirs [user_id] }
    match env.readResult with
    | .error e => (st1, .httpError 500 (registerErrDetail e))
    | .ok contents =>
      match env.writeOutcome with
      | .error e =>
        ({ st1 with
            files := fsWrite st1.files [user_id, faceFile] env.partialBytes },
          .httpError 500 (registerErrDetail e))
      | .ok _ =>
        let st2 : DBState :=
          { st1 with files := fsWrite st1.files [user_id, faceFile] contents }
        if fsHas st2.files [reprFile] then
          match env.removeExn with
          | some e => (st2, .httpError 500 (registerErrDetail e))
          | none =>
            ({ st2 with files := fsRemove st2.files [reprFile] },
              .success user_id)
        else
          (st2, .success user_id)

/-- Apply the side effect `DeepFace.find` has on the store: it may
(re)write the cache file `representations_sface.pkl` under `DB_PATH`. -/
def applyCache (c : Option Bytes) (fs : FS) : FS :=
  match c with
  | none => fs
  | some b => fsWrite fs [reprFile] b

/-- The `/identify` handler (`identify_face` in `src/main.py`).  The
deliberate `HTTPException(404, ...)` raised when `DeepFace.find` comes back
empty is re-raised unchanged by the `except HTTPException` clause; every
other exception is turned into an `HTTPException(500, ...)`.  On a match
the user id is extracted from the best row's identity path string with
`os.path.basename(os.path.dirname(...))`. -/
def identify_face (env : IdentifyEnv) (st : DBState) :
    DBState × IdentifyResponse :=
  match env.readResult with
  | .error e => (st, .httpError 500 (identifyErrDetail e))
  | .ok _image_bytes =>
    match env.decodeOutcome with
    | .error e => (st, .httpError 500 (identifyErrDetail e))
    | .ok _ =>
      let st1 : DBState := { st with files := applyCache env.cacheWrite st.files }
      match env.findResult with
      | .error e => (st1, .httpError 500 (identifyErrDetail e))
      | .ok dfs =>
        match dfs with
        | [] => (st1, .httpError 404 noMatchDetail)
        | df :: _ =>
          match df with
          | [] => (st1, .httpError 404 noMatchDetail)
          | row :: _ =>
            (st1, .matchFound (basename (dirname row.identity)))

/-- One request handled by the service: either a `/register` call or an
`/identify` call, with the oracle describing what its fallible steps did. -/
inductive Op where
  | reg (env : RegisterEnv) (user_id : String)
  | ident (env : IdentifyEnv)

/-- The store after handling one request. -/
def stepOp (st : DBState) (op : Op) : DBState :=
  match op with
  | .reg env uid => (register_face env st uid).1
  | .ident env => (identify_face env st).1

/-- The store after handling a sequence of requests. -/
def runOps (st : DBState) (ops : List Op) : DBState :=
  ops.foldl stepOp st

/-- The store invariant: every file in an identity folder (a depth-two
path under `DB_PATH`) is the single reference image `face.jpg`, so each
identity folder holds at most that one image. -/
def InvOneImage (st : DBState) : Prop :=
  ∀ u s, (fsLookup st.files [u, s]).isSome = true → s = faceFile

/-- Some step of the `register_face` body raises an exception on this call
(the `os.remove` step only runs when the cache file exists after the
image write, which leaves `st.files` at `[reprFile]` untouched). -/
def registerRaises (env : RegisterEnv) (st : DBState) (user_id : String) :
    Prop :=
  env.makedirsExn ≠ none ∨
  (∃ e, env.readResult = .error e) ∨
  (∃ e, env.writeOutcome = .error e) ∨
  (∃ contents, env.readResult = .ok contents ∧
    fsHas (fsWrite st.files [user_id, faceFile] contents) [reprFile]
      = true ∧
    env.removeExn ≠ none)

/-- Some step of the `identify_face` body raises an exception (other than
the handler's own deliberate no-match `HTTPException`). -/
def identifyRaises (env : IdentifyEnv) : Prop :=
  (∃ e, env.readResult = .error e) ∨
  (∃ e, env.decodeOutcome = .error e) ∨
  (∃ e, env.findResult = .error e)

/-! ## Lemmas and claim theorems -/

theorem takeWhile_append_all {α : Type} (p : α → Bool) (l₁ l₂ : List α)
    (h : ∀ a ∈ l₁, p a = true) :
    (l₁ ++ l₂).takeWhile p = l₁ ++ l₂.takeWhile p := by
  induction l₁ with
  | nil => simp
  | cons a t ih =>
    have ha : p a = true := h a (List.mem_cons_self a t)
    have ht : ∀ b ∈ t, p b = true := fun b hb => h b (List.mem_cons_of_mem a hb)
    simp [List.takeWhile_cons, ha, ih ht]

theorem dropWhile_append_all {α : Type} (p : α → Bool) (l₁ l₂ : List α)
    (h : ∀ a ∈ l₁, p a = true) :
    (l₁ ++ l₂).dropWhile p = l₂.dropWhile p := by
  induction l₁ with
  | nil => simp
  | cons a t ih =>
    have ha : p a = true := h a (List.mem_cons_self a t)
    have ht : ∀ b ∈ t, p b = true := fun b hb => h b (List.mem_cons_of_mem a hb)
    simp [List.dropWhile_cons, ha, ih ht]

theorem takeWhile_all {α : Type} (p : α → Bool) (l : List α)
    (h : ∀ a ∈ l, p a = true) : l.takeWhile p = l := by
  induction l with
  | nil => simp
  | cons a t ih =>
    have ha : p a = true := h a (List.mem_cons_self a t)
    have ht : ∀ b ∈ t, p b = true := fun b hb => h b (List.mem_cons_of_mem a hb)
    simp [List.takeWhile_cons, ha, ih ht]

theorem basenameL_of_no_sep (p : List Char) (h : sep ∉ p) :
    basenameL p = p := by
  unfold basenameL
  rw [takeWhile_all]
  · exact p.reverse_reverse
  · intro a ha
    simp only [bne_iff_ne, ne_eq]
    intro hEq
    exact h (by simpa [hEq] using (List.mem_reverse).1 ha)

theorem basenameL_append_sep (xs ys : List Char) (h : sep ∉ ys) :
    basenameL (xs ++ sep :: ys) = ys := by
  unfold basenameL
  have hrev : (xs ++ sep :: ys).reverse = ys.reverse ++ sep :: xs.reverse := by
    simp
  rw [hrev, takeWhile_append_all]
  · simp [List.takeWhile_cons]
  · intro a ha
    simp only [bne_iff_ne, ne_eq]
    intro hEq
    exact h (by simpa [hEq] using (List.mem_reverse).1 ha)

theorem dirnameHead_append_sep (xs ys : List Char) (h : sep ∉ ys) :
    dirnameHead (xs ++ sep :: ys) = xs ++ [sep] := by
  unfold dirnameHead
  have hrev : (xs ++ sep :: ys).reverse = ys.reverse ++ sep :: xs.reverse := by
    simp
  rw [hrev, dropWhile_append_all]
  · simp [List.dropWhile_cons]
  · intro a ha
    simp only [bne_iff_ne, ne_eq]
    intro hEq
    exact h (by simpa [hEq] using (List.mem_reverse).1 ha)

theorem rstripSep_append_sep (P : List Char) (hP : P ≠ [])
    (hlast : P.getLast? ≠ some sep) :
    rstripSep (P ++ [sep]) = P := by
  unfold rstripSep
  have hrev : (P ++ [sep]).reverse = sep :: P.reverse := by simp
  rw [hrev, List.dropWhile_cons]
  simp only [beq_self_eq_true, if_true]
  cases hPr : P.reverse with
  | nil =>
    exact absurd (by simpa using congrArg List.reverse hPr) hP
  | cons a t =>
    have hPdec : P = t.reverse ++ [a] := by
      have := congrArg List.reverse hPr
      simpa using this
    have ha : a ≠ sep := by
      intro hEq
      apply hlast
      rw [hPdec, hEq]
      exact List.getLast?_concat _
    rw [List.dropWhile_cons]
    simp only [beq_iff_eq, ha, ite_false]
    rw [← hPr, P.reverse_reverse]

theorem eq_concat_of_getLast {α : Type} (l : List α) (a : α)
    (h : l.getLast? = some a) : ∃ ys, l = ys ++ [a] := by
  cases hr : l.reverse with
  | nil =>
    have : l = [] := by simpa using congrArg List.reverse hr
    rw [this] at h
    exact absurd h (by simp)
  | cons b t =>
    have hdec : l = t.reverse ++ [b] := by simpa using congrArg List.reverse hr
    have : l.getLast? = some b := by rw [hdec]; exact List.getLast?_concat _
    rw [this] at h
    exact ⟨t.reverse, by rw [hdec]; injection h with h; rw [h]⟩

theorem getLast?_append_right {α : Type} (xs ys : List α) (h : ys ≠ []) :
    (xs ++ ys).getLast? = ys.getLast? := by
  cases hr : ys.reverse with
  | nil => exact absurd (by simpa using congrArg List.reverse hr) h
  | cons b t =>
    have hdec : ys = t.reverse ++ [b] := by simpa using congrArg List.reverse hr
    rw [hdec, ← List.append_assoc, List.getLast?_concat, List.getLast?_concat]

theorem head?_ne_some_sep (l : List Char) (h : sep ∉ l) :
    l.head? ≠ some sep := by
  cases l with
  | nil => simp
  | cons c t =>
    simp only [List.head?_cons, ne_eq, Option.some.injEq]
    intro hEq
    exact h (by simp [hEq])

theorem dirnameL_append_sep (P ys : List Char) (hy : sep ∉ ys) (hP : P ≠ [])
    (hlast : P.getLast? ≠ some sep) :
    dirnameL (P ++ sep :: ys) = P := by
  unfold dirnameL
  rw [dirnameHead_append_sep P ys hy]
  have hne : ¬ (P ++ [sep] = []) := by simp
  have hall : ¬ ((P ++ [sep]).all (· == sep) = true) := by
    intro hall
    cases hPr : P.reverse with
    | nil => exact hP (by simpa using congrArg List.reverse hPr)
    | cons a t =>
      have hPdec : P = t.reverse ++ [a] := by
        simpa using congrArg List.reverse hPr
      have ha : a ≠ sep := by
        intro hEq
        apply hlast
        rw [hPdec, hEq]
        exact List.getLast?_concat _
      have haMem : a ∈ P ++ [sep] := by rw [hPdec]; simp
      have := (List.all_eq_true.1 hall) a haMem
      exact ha (by simpa using this)
  rw [if_neg hne, if_neg hall]
  exact rstripSep_append_sep P hP hlast

theorem joinOne_eq_concat (db uid : List Char) (h1 : sep ∉ uid)
    (_h2 : uid ≠ []) :
    ∃ xs, joinOne db uid = xs ++ uid ∧ (xs = [] ∨ ∃ ys, xs = ys ++ [sep]) := by
  unfold joinOne
  rw [if_neg (head?_ne_some_sep uid h1)]
  by_cases hdb : db = [] ∨ db.getLast? = some sep
  · rw [if_pos hdb]
    refine ⟨db, rfl, ?_⟩
    cases hdb with
    | inl h => exact Or.inl h
    | inr h => exact Or.inr (eq_concat_of_getLast db sep h)
  · rw [if_neg hdb]
    exact ⟨db ++ [sep], by simp, Or.inr ⟨db, rfl⟩⟩

theorem basenameL_joinOne (db uid : List Char) (h1 : sep ∉ uid)
    (h2 : uid ≠ []) : basenameL (joinOne db uid) = uid := by
  obtain ⟨xs, hx, hcase⟩ := joinOne_eq_concat db uid h1 h2
  rw [hx]
  cases hcase with
  | inl h => rw [h]; simpa using basenameL_of_no_sep uid h1
  | inr h =>
    obtain ⟨ys, hy⟩ := h
    rw [hy, List.append_assoc]
    simpa using basenameL_append_sep ys uid h1

theorem joinOne_ne_nil (db uid : List Char) (h1 : sep ∉ uid) (h2 : uid ≠ []) :
    joinOne db uid ≠ [] := by
  obtain ⟨xs, hx, _⟩ := joinOne_eq_concat db uid h1 h2
  rw [hx]
  simp [h2]

theorem joinOne_getLast_ne_sep (db uid : List Char) (h1 : sep ∉ uid)
    (h2 : uid ≠ []) : (joinOne db uid).getLast? ≠ some sep := by
  obtain ⟨xs, hx, _⟩ := joinOne_eq_concat db uid h1 h2
  rw [hx, getLast?_append_right xs uid h2]
  intro h
  obtain ⟨ys, hy⟩ := eq_concat_of_getLast uid sep h
  exact h1 (by rw [hy]; simp)

theorem extract_inverts_join (db uid fj : List Char) (h1 : sep ∉ uid)
    (h2 : uid ≠ []) (h3 : sep ∉ fj) :
    basenameL (dirnameL (joinOne (joinOne db uid) fj)) = uid := by
  have hPne : joinOne db uid ≠ [] := joinOne_ne_nil db uid h1 h2
  have hPlast : (joinOne db uid).getLast? ≠ some sep :=
    joinOne_getLast_ne_sep db uid h1 h2
  have hjoin : joinOne (joinOne db uid) fj = joinOne db uid ++ sep :: fj := by
    unfold joinOne
    rw [if_neg (head?_ne_some_sep fj h3), if_neg]
    intro hor
    cases hor with
    | inl h => exact hPne h
    | inr h => exact hPlast h
  rw [hjoin, dirnameL_append_sep _ fj h3 hPne hPlast,
    basenameL_joinOne db uid h1 h2]

theorem fsLookup_cons (r : FPath) (b : Bytes) (rest : FS) (q : FPath) :
    fsLookup ((r, b) :: rest) q = if r = q then some b else fsLookup rest q :=
  rfl

theorem fsRemove_cons (r : FPath) (b : Bytes) (rest : FS) (p : FPath) :
    fsRemove ((r, b) :: rest) p =
      if r = p then fsRemove rest p else (r, b) :: fsRemove rest p := by
  by_cases he : r = p
  · simp [fsRemove, List.filter_cons, he]
  · simp [fsRemove, List.filter_cons, he]

@[simp]
theorem fsLookup_write_self (fs : FS) (p : FPath) (b : Bytes) :
    fsLookup (fsWrite fs p b) p = some b := by
  simp [fsWrite, fsLookup_cons]

theorem fsLookup_write_ne (fs : FS) (p q : FPath) (b : Bytes) (h : q ≠ p) :
    fsLookup (fsWrite fs p b) q = fsLookup fs q := by
  have hne : ¬ (p = q) := fun hpq => h hpq.symm
  simp [fsWrite, fsLookup_cons, hne]

@[simp]
theorem fsLookup_remove_self (fs : FS) (p : FPath) :
    fsLookup (fsRemove fs p) p = none := by
  induction fs with
  | nil => rfl
  | cons e rest ih =>
    obtain ⟨r, b⟩ := e
    rw [fsRemove_cons]
    by_cases he : r = p
    · rw [if_pos he]; exact ih
    · rw [if_neg he, fsLookup_cons, if_neg he]; exact ih

theorem fsLookup_remove_ne (fs : FS) (p q : FPath) (h : q ≠ p) :
    fsLookup (fsRemove fs p) q = fsLookup fs q := by
  induction fs with
  | nil => rfl
  | cons e rest ih =>
    obtain ⟨r, b⟩ := e
    rw [fsRemove_cons, fsLookup_cons]
    by_cases he : r = p
    · rw [if_pos he, ih]
      have hq : ¬ (r = q) := fun hrq => h (by rw [← hrq]; exact he)
      rw [if_neg hq]
    · rw [if_neg he, fsLookup_cons, ih]

@[simp]
theorem mem_insertDir_self (ds : List FPath) (d : FPath) :
    d ∈ insertDir ds d := by
  unfold insertDir
  by_cases h : d ∈ ds
  · simp [h]
  · simp [h]

theorem mem_insertDir_of_mem (ds : List FPath) (d e : FPath) (h : e ∈ ds) :
    e ∈ insertDir ds d := by
  unfold insertDir
  by_cases hd : d ∈ ds
  · simpa [hd]
  · simp [hd, h]

theorem imagePath_ne_reprPath (u : String) :
    ([u, faceFile] : FPath) ≠ [reprFile] := by
  intro h
  exact absurd (congrArg List.length h) (by simp)

theorem register_face_eq_mkdirs_fail (env : RegisterEnv) (st : DBState)
    (uid : String) (e : Exn) (hm : env.makedirsExn = some e) :
    register_face env st uid = (st, .httpError 500 (registerErrDetail e)) := by
  simp [register_face, hm]

theorem register_face_eq_read_fail (env : RegisterEnv) (st : DBState)
    (uid : String) (e : Exn) (hm : env.makedirsExn = none)
    (hr : env.readResult = .error e) :
    register_face env st uid
      = ({ st with dirs := insertDir st.dirs [uid] },
          .httpError 500 (registerErrDetail e)) := by
  simp [register_face, hm, hr]

theorem register_face_eq_write_fail (env : RegisterEnv) (st : DBState)
    (uid : String) (contents : Bytes) (e : Exn) (hm : env.makedirsExn = none)
    (hr : env.readResult = .ok contents) (hw : env.writeOutcome = .error e) :
    register_face env st uid
      = ({ dirs := insertDir st.dirs [uid],
            files := fsWrite st.files [uid, faceFile] env.partialBytes },
          .httpError 500 (registerErrDetail e)) := by
  simp [register_face, hm, hr, hw]

theorem register_face_eq_remove_fail (env : RegisterEnv) (st : DBState)
    (uid : String) (contents : Bytes) (w : Unit) (e : Exn)
    (hm : env.makedirsExn = none) (hr : env.readResult = .ok contents)
    (hw : env.writeOutcome = .ok w)
    (hpkl : fsHas (fsWrite st.files [uid, faceFile] contents) [reprFile]
      = true)
    (hrm : env.removeExn = some e) :
    register_face env st uid
      = ({ dirs := insertDir st.dirs [uid],
            files := fsWrite st.files [uid, faceFile] contents },
          .httpError 500 (registerErrDetail e)) := by
  simp [register_face, hm, hr, hw, hpkl, hrm]

theorem register_face_eq_success_remove (env : RegisterEnv) (st : DBState)
    (uid : String) (contents : Bytes) (w : Unit)
    (hm : env.makedirsExn = none) (hr : env.readResult = .ok contents)
    (hw : env.writeOutcome = .ok w)
    (hpkl : fsHas (fsWrite st.files [uid, faceFile] contents) [reprFile]
      = true)
    (hrm : env.removeExn = none) :
    register_face env st uid
      = ({ dirs := insertDir st.dirs [uid],
            files := fsRemove (fsWrite st.files [uid, faceFile] contents)
              [reprFile] },
          .success uid) := by
  simp [register_face, hm, hr, hw, hpkl, hrm]

theorem register_face_eq_success_nopkl (env : RegisterEnv) (st : DBState)
    (uid : String) (contents : Bytes) (w : Unit)
    (hm : env.makedirsExn = none) (hr : env.readResult = .ok contents)
    (hw : env.writeOutcome = .ok w)
    (hpkl : fsHas (fsWrite st.files [uid, faceFile] contents) [reprFile]
      = false) :
    register_face env st uid
      = ({ dirs := insertDir st.dirs [uid],
            files := fsWrite st.files [uid, faceFile] contents },
          .success uid) := by
  simp [register_face, hm, hr, hw, hpkl]

theorem register_face_state_cases (env : RegisterEnv) (st : DBState)
    (user_id : String) :
    ((register_face env st user_id).1.dirs = st.dirs ∨
      (register_face env st user_id).1.dirs = insertDir st.dirs [user_id]) ∧
    ((register_face env st user_id).1.files = st.files ∨
      ∃ b, (register_face env st user_id).1.files
            = fsWrite st.files [user_id, faceFile] b ∨
        (register_face env st user_id).1.files
            = fsRemove (fsWrite st.files [user_id, faceFile] b) [reprFile]) := by
  cases hm : env.makedirsExn with
  | some e =>
    rw [register_face_eq_mkdirs_fail env st user_id e hm]
    exact ⟨Or.inl rfl, Or.inl rfl⟩
  | none =>
    cases hr : env.readResult with
    | error e =>
      rw [register_face_eq_read_fail env st user_id e hm hr]
      exact ⟨Or.inr rfl, Or.inl rfl⟩
    | ok contents =>
      cases hw : env.writeOutcome with
      | error e =>
        rw [register_face_eq_write_fail env st user_id contents e hm hr hw]
        exact ⟨Or.inr rfl, Or.inr ⟨env.partialBytes, Or.inl rfl⟩⟩
      | ok w =>
        cases hpkl :
            fsHas (fsWrite st.files [user_id, faceFile] contents) [reprFile]
            with
        | false =>
          rw [register_face_eq_success_nopkl env st user_id contents w
            hm hr hw hpkl]
          exact ⟨Or.inr rfl, Or.inr ⟨contents, Or.inl rfl⟩⟩
        | true =>
          cases hrm : env.removeExn with
          | some e =>
            rw [register_face_eq_remove_fail env st user_id contents w e
              hm hr hw hpkl hrm]
            exact ⟨Or.inr rfl, Or.inr ⟨contents, Or.inl rfl⟩⟩
          | none =>
            rw [register_face_eq_success_remove env st user_id contents w
              hm hr hw hpkl hrm]
            exact ⟨Or.inr rfl, Or.inr ⟨contents, Or.inr rfl⟩⟩

theorem identify_face_state_cases (env : IdentifyEnv) (st : DBState) :
    (identify_face env st).1.dirs = st.dirs ∧
    ((identify_face env st).1.files = st.files ∨
      ∃ b, (identify_face env st).1.files = fsWrite st.files [reprFile] b) := by
  unfold identify_face
  cases hr : env.readResult with
  | error e => exact ⟨rfl, Or.inl rfl⟩
  | ok bs =>
    cases hd : env.decodeOutcome with
    | error e => exact ⟨rfl, Or.inl rfl⟩
    | ok u =>
      have hcache : (applyCache env.cacheWrite st.files = st.files ∧
            env.cacheWrite = none) ∨
          ∃ b, applyCache env.cacheWrite st.files
            = fsWrite st.files [reprFile] b := by
        cases hc : env.cacheWrite with
        | none => exact Or.inl ⟨rfl, rfl⟩
        | some b => exact Or.inr ⟨b, rfl⟩
      cases hf : env.findResult with
      | error e =>
        rcases hcache with ⟨hc, _⟩ | ⟨b, hc⟩
        · exact ⟨rfl, Or.inl (by simpa using congrArg id hc)⟩
        · exact ⟨rfl, Or.inr ⟨b, by simpa using congrArg id hc⟩⟩
      | ok dfs =>
        cases dfs with
        | nil =>
          rcases hcache with ⟨hc, _⟩ | ⟨b, hc⟩
          · exact ⟨rfl, Or.inl (by simpa using congrArg id hc)⟩
          · exact ⟨rfl, Or.inr ⟨b, by simpa using congrArg id hc⟩⟩
        | cons df rest =>
          cases df with
          | nil =>
            rcases hcache with ⟨hc, _⟩ | ⟨b, hc⟩
            · exact ⟨rfl, Or.inl (by simpa using congrArg id hc)⟩
            · exact ⟨rfl, Or.inr ⟨b, by simpa using congrArg id hc⟩⟩
          | cons row rows =>
            rcases hcache with ⟨hc, _⟩ | ⟨b, hc⟩
            · exact ⟨rfl, Or.inl (by simpa using congrArg id hc)⟩
            · exact ⟨rfl, Or.inr ⟨b, by simpa using congrArg id hc⟩⟩

theorem identify_face_eq_read_fail (env : IdentifyEnv) (st : DBState)
    (e : Exn) (hr : env.readResult = .error e) :
    identify_face env st = (st, .httpError 500 (identifyErrDetail e)) := by
  simp [identify_face, hr]

theorem identify_face_eq_decode_fail (env : IdentifyEnv) (st : DBState)
    (bs : Bytes) (e : Exn) (hr : env.readResult = .ok bs)
    (hd : env.decodeOutcome = .error e) :
    identify_face env st = (st, .httpError 500 (identifyErrDetail e)) := by
  simp [identify_face, hr, hd]

theorem identify_face_eq_find_fail (env : IdentifyEnv) (st : DBState)
    (bs : Bytes) (e : Exn) (hr : env.readResult = .ok bs)
    (hd : env.decodeOutcome = .ok ()) (hf : env.findResult = .error e) :
    identify_face env st
      = ({ st with files := applyCache env.cacheWrite st.files },
          .httpError 500 (identifyErrDetail e)) := by
  simp [identify_face, hr, hd, hf]

theorem identify_face_eq_empty (env : IdentifyEnv) (st : DBState)
    (bs : Bytes) (hr : env.readResult = .ok bs)
    (hd : env.decodeOutcome = .ok ()) (hf : env.findResult = .ok []) :
    identify_face env st
      = ({ st with files := applyCache env.cacheWrite st.files },
          .httpError 404 noMatchDetail) := by
  simp [identify_face, hr, hd, hf]

theorem identify_face_eq_empty_first (env : IdentifyEnv) (st : DBState)
    (bs : Bytes) (rest : List (List DFRow)) (hr : env.readResult = .ok bs)
    (hd : env.decodeOutcome = .ok ())
    (hf : env.findResult = .ok ([] :: rest)) :
    identify_face env st
      = ({ st with files := applyCache env.cacheWrite st.files },
          .httpError 404 noMatchDetail) := by
  simp [identify_face, hr, hd, hf]

theorem identify_face_eq_match (env : IdentifyEnv) (st : DBState)
    (bs : Bytes) (row : DFRow) (rows : List DFRow)
    (rest : List (List DFRow)) (hr : env.readResult = .ok bs)
    (hd : env.decodeOutcome = .ok ())
    (hf : env.findResult = .ok ((row :: rows) :: rest)) :
    identify_face env st
      = ({ st with files := applyCache env.cacheWrite st.files },
          .matchFound (basename (dirname row.identity))) := by
  simp [identify_face, hr, hd, hf]

theorem fsLookup_eq_none_of_fsHas_false (fs : FS) (p : FPath)
    (h : fsHas fs p = false) : fsLookup fs p = none := by
  unfold fsHas at h
  cases hl : fsLookup fs p with
  | none => rfl
  | some b => rw [hl] at h; simp at h

theorem register_face_success_shape (env : RegisterEnv) (st : DBState)
    (user_id u : String)
    (h : (register_face env st user_id).2 = .success u) :
    u = user_id ∧
    ∃ contents, env.readResult = .ok contents ∧
      (register_face env st user_id).1.dirs = insertDir st.dirs [user_id] ∧
      ((register_face env st user_id).1.files
          = fsRemove (fsWrite st.files [user_id, faceFile] contents)
              [reprFile] ∨
        ((register_face env st user_id).1.files
            = fsWrite st.files [user_id, faceFile] contents ∧
          fsHas (fsWrite st.files [user_id, faceFile] contents) [reprFile]
            = false)) := by
  cases hm : env.makedirsExn with
  | some e =>
    rw [register_face_eq_mkdirs_fail env st user_id e hm] at h
    simp at h
  | none =>
    cases hr : env.readResult with
    | error e =>
      rw [register_face_eq_read_fail env st user_id e hm hr] at h
      simp at h
    | ok contents =>
      cases hw : env.writeOutcome with
      | error e =>
        rw [register_face_eq_write_fail env st user_id contents e hm hr hw]
          at h
        simp at h
      | ok w =>
        cases hpkl :
            fsHas (fsWrite st.files [user_id, faceFile] contents) [reprFile]
            with
        | false =>
          have heq := register_face_eq_success_nopkl env st user_id contents w
            hm hr hw hpkl
          rw [heq] at h
          have hu : u = user_id := by
            have := h
            simp at this
            exact this.symm
          exact ⟨hu, contents, rfl, by rw [heq], Or.inr ⟨by rw [heq], hpkl⟩⟩
        | true =>
          cases hrm : env.removeExn with
          | some e =>
            rw [register_face_eq_remove_fail env st user_id contents w e
              hm hr hw hpkl hrm] at h
            simp at h
          | none =>
            have heq := register_face_eq_success_remove env st user_id
              contents w hm hr hw hpkl hrm
            rw [heq] at h
            have hu : u = user_id := by
              have := h
              simp at this
              exact this.symm
            exact ⟨hu, contents, rfl, by rw [heq], Or.inl (by rw [heq])⟩

theorem register_face_resp_cases (env : RegisterEnv) (st : DBState)
    (user_id : String) :
    (register_face env st user_id).2 = .success user_id ∨
    ∃ e, (register_face env st user_id).2
      = .httpError 500 (registerErrDetail e) := by
  cases hm : env.makedirsExn with
  | some e =>
    rw [register_face_eq_mkdirs_fail env st user_id e hm]
    exact Or.inr ⟨e, rfl⟩
  | none =>
    cases hr : env.readResult with
    | error e =>
      rw [register_face_eq_read_fail env st user_id e hm hr]
      exact Or.inr ⟨e, rfl⟩
    | ok contents =>
      cases hw : env.writeOutcome with
      | error e =>
        rw [register_face_eq_write_fail env st user_id contents e hm hr hw]
        exact Or.inr ⟨e, rfl⟩
      | ok w =>
        cases hpkl :
            fsHas (fsWrite st.files [user_id, faceFile] contents) [reprFile]
            with
        | false =>
          rw [register_face_eq_success_nopkl env st user_id contents w
            hm hr hw hpkl]
          exact Or.inl rfl
        | true =>
          cases hrm : env.removeExn with
          | some e =>
            rw [register_face_eq_remove_fail env st user_id contents w e
              hm hr hw hpkl hrm]
            exact Or.inr ⟨e, rfl⟩
          | none =>
            rw [register_face_eq_success_remove env st user_id contents w
              hm hr hw hpkl hrm]
            exact Or.inl rfl

theorem identify_face_resp_cases (env : IdentifyEnv) (st : DBState) :
    (∃ v, (identify_face env st).2 = .matchFound v) ∨
    (identify_face env st).2 = .httpError 404 noMatchDetail ∨
    ∃ e, (identify_face env st).2 = .httpError 500 (identifyErrDetail e) := by
  cases hr : env.readResult with
  | error e =>
    rw [identify_face_eq_read_fail env st e hr]
    exact Or.inr (Or.inr ⟨e, rfl⟩)
  | ok bs =>
    cases hd : env.decodeOutcome with
    | error e =>
      rw [identify_face_eq_decode_fail env st bs e hr hd]
      exact Or.inr (Or.inr ⟨e, rfl⟩)
    | ok w =>
      cases w
      cases hf : env.findResult with
      | error e =>
        rw [identify_face_eq_find_fail env st bs e hr hd hf]
        exact Or.inr (Or.inr ⟨e, rfl⟩)
      | ok dfs =>
        cases dfs with
        | nil =>
          rw [identify_face_eq_empty env st bs hr hd hf]
          exact Or.inr (Or.inl rfl)
        | cons df rest =>
          cases df with
          | nil =>
            rw [identify_face_eq_empty_first env st bs rest hr hd hf]
            exact Or.inr (Or.inl rfl)
          | cons row rows =>
            rw [identify_face_eq_match env st bs row rows rest hr hd hf]
            exact Or.inl ⟨_, rfl⟩

theorem register_face_raises_500 (env : RegisterEnv) (st : DBState)
    (user_id : String) (h : registerRaises env st user_id) :
    ∃ e, (register_face env st user_id).2
      = .httpError 500 (registerErrDetail e) := by
  cases hm : env.makedirsExn with
  | some e =>
    exact ⟨e, by rw [register_face_eq_mkdirs_fail env st user_id e hm]⟩
  | none =>
    cases hr : env.readResult with
    | error e =>
      exact ⟨e, by rw [register_face_eq_read_fail env st user_id e hm hr]⟩
    | ok contents =>
      cases hw : env.writeOutcome with
      | error e =>
        exact ⟨e, by
          rw [register_face_eq_write_fail env st user_id contents e hm hr hw]⟩
      | ok w =>
        cases hpkl :
            fsHas (fsWrite st.files [user_id, faceFile] contents) [reprFile]
            with
        | true =>
          cases hrm : env.removeExn with
          | some e =>
            exact ⟨e, by
              rw [register_face_eq_remove_fail env st user_id contents w e
                hm hr hw hpkl hrm]⟩
          | none =>
            exfalso
            rcases h with h | ⟨e, h⟩ | ⟨e, h⟩ | ⟨cc, hcc, hpx, hrm2⟩
            · exact h hm
            · rw [hr] at h; exact absurd h (by simp)
            · rw [hw] at h; exact absurd h (by simp)
            · exact hrm2 hrm
        | false =>
          exfalso
          rcases h with h | ⟨e, h⟩ | ⟨e, h⟩ | ⟨cc, hcc, hpx, hrm2⟩
          · exact h hm
          · rw [hr] at h; exact absurd h (by simp)
          · rw [hw] at h; exact absurd h (by simp)
          · rw [hr] at hcc
            have hceq : contents = cc := by injection hcc
            rw [← hceq] at hpx
            rw [hpkl] at hpx
            exact absurd hpx (by simp)

theorem identify_face_raises_500 (env : IdentifyEnv) (st : DBState)
    (h : identifyRaises env) :
    ∃ e, (identify_face env st).2 = .httpError 500 (identifyErrDetail e) := by
  cases hr : env.readResult with
  | error e => exact ⟨e, by rw [identify_face_eq_read_fail env st e hr]⟩
  | ok bs =>
    cases hd : env.decodeOutcome with
    | error e =>
      exact ⟨e, by rw [identify_face_eq_decode_fail env st bs e hr hd]⟩
    | ok w =>
      cases w
      cases hf : env.findResult with
      | error e =>
        exact ⟨e, by rw [identify_face_eq_find_fail env st bs e hr hd hf]⟩
      | ok dfs =>
        exfalso
        rcases h with ⟨e, h⟩ | ⟨e, h⟩ | ⟨e, h⟩
        · rw [hr] at h; exact absurd h (by simp)
        · rw [hd] at h; exact absurd h (by simp)
        · rw [hf] at h; exact absurd h (by simp)

theorem invOneImage_register (env : RegisterEnv) (st : DBState)
    (uid : String) (h : InvOneImage st) :
    InvOneImage (register_face env st uid).1 := by
  obtain ⟨_, hfiles⟩ := register_face_state_cases env st uid
  intro u s hs
  rcases hfiles with hf | ⟨b, hf | hf⟩
  · rw [hf] at hs; exact h u s hs
  · rw [hf] at hs
    by_cases he : ([u, s] : FPath) = [uid, faceFile]
    · injection he with h1 h2
      injection h2
    · rw [fsLookup_write_ne _ _ _ _ he] at hs
      exact h u s hs
  · rw [hf] at hs
    by_cases hrepr : ([u, s] : FPath) = [reprFile]
    · rw [hrepr, fsLookup_remove_self] at hs
      simp at hs
    · rw [fsLookup_remove_ne _ _ _ hrepr] at hs
      by_cases he : ([u, s] : FPath) = [uid, faceFile]
      · injection he with h1 h2
        injection h2
      · rw [fsLookup_write_ne _ _ _ _ he] at hs
        exact h u s hs

theorem invOneImage_identify (env : IdentifyEnv) (st : DBState)
    (h : InvOneImage st) : InvOneImage (identify_face env st).1 := by
  obtain ⟨_, hfiles⟩ := identify_face_state_cases env st
  intro u s hs
  rcases hfiles with hf | ⟨b, hf⟩
  · rw [hf] at hs; exact h u s hs
  · rw [hf] at hs
    have hne : ([u, s] : FPath) ≠ [reprFile] := by
      intro hh
      exact absurd (congrArg List.length hh) (by simp)
    rw [fsLookup_write_ne _ _ _ _ hne] at hs
    exact h u s hs

theorem invOneImage_run (st : DBState) (ops : List Op)
    (h : InvOneImage st) : InvOneImage (runOps st ops) := by
  induction ops generalizing st with
  | nil => exact h
  | cons op rest ih =>
    have hstep : InvOneImage (stepOp st op) := by
      cases op with
      | reg env uid => exact invOneImage_register env st uid h
      | ident env => exact invOneImage_identify env st h
    exact ih (stepOp st op) hstep

/-- C8: for every `user_id` that is a single non-empty path component
(no path separator, not `.` or `..`), the identity extraction used by
`identify_face` — `os.path.basename(os.path.dirname(path))` — inverts the
storage path `os.path.join(os.path.join(DB_PATH, user_id), "face.jpg")`
built by `register_face`, yielding exactly the original `user_id`. -/
theorem c8_extraction_inverts_storage_path (dbPath user_id : String)
    (h1 : user_id.data ≠ []) (h2 : sep ∉ user_id.data)
    (_h3 : user_id ≠ ".") (_h4 : user_id ≠ "..") :
    basename (dirname (joinPath (joinPath dbPath user_id) faceFile))
      = user_id := by
  show (⟨basenameL (dirnameL (joinOne (joinOne dbPath.data user_id.data)
    faceFile.data))⟩ : String) = user_id
  rw [extract_inverts_join dbPath.data user_id.data faceFile.data h2 h1
    (by decide)]

/-- Witness for C8 at `DB_PATH = "face_db_local"`, `user_id = "alice"`. -/
theorem c8_witness :
    ("alice" : String).data ≠ [] ∧ sep ∉ ("alice" : String).data ∧
    basename (dirname (joinPath (joinPath "face_db_local" "alice")
      faceFile)) = "alice" :=
  ⟨by decide, by decide,
    c8_extraction_inverts_storage_path "face_db_local" "alice" (by decide)
      (by decide) (by decide) (by decide)⟩

/-- C2: whenever `DeepFace.find` returns a ranked candidate list whose
first dataframe is non-empty, `identify_face` reports a match whose
identity is the best (first-ranked) candidate's, computed as the name of
the parent folder of that candidate's identity path. -/
theorem c2_identify_reports_best_candidate (env : IdentifyEnv)
    (st : DBState) (bs : Bytes) (row : DFRow) (rows : List DFRow)
    (rest : List (List DFRow)) (hr : env.readResult = .ok bs)
    (hd : env.decodeOutcome = .ok ())
    (hf : env.findResult = .ok ((row :: rows) :: rest)) :
    (identify_face env st).2
      = .matchFound (basename (dirname row.identity)) := by
  rw [identify_face_eq_match env st bs row rows rest hr hd hf]

/-- Witness for C2: a single candidate at
`face_db_local/alice/face.jpg` is reported as a match for `alice`. -/
theorem c2_witness :
    (identify_face
        ⟨.ok [0], .ok (), none, .ok [[⟨"face_db_local/alice/face.jpg"⟩]]⟩
        ⟨[], []⟩).2 = .matchFound "alice" := by
  rw [c2_identify_reports_best_candidate _ ⟨[], []⟩ [0]
    ⟨"face_db_local/alice/face.jpg"⟩ [] [] rfl rfl rfl]
  decide

/-- C5: whenever `DeepFace.find` returns no candidates — an empty result
list or an empty first result set — `identify_face` answers with the
distinct no-match response, HTTP 404 with the "no matching face" detail,
not a match and not a 500. -/
theorem c5_identify_no_candidates_404 (env : IdentifyEnv) (st : DBState)
    (bs : Bytes) (dfs : List (List DFRow)) (hr : env.readResult = .ok bs)
    (hd : env.decodeOutcome = .ok ()) (hf : env.findResult = .ok dfs)
    (hempty : dfs = [] ∨ ∃ rest, dfs = [] :: rest) :
    (identify_face env st).2 = .httpError 404 noMatchDetail := by
  rcases hempty with hcase | ⟨rest, hcase⟩
  · rw [hcase] at hf
    rw [identify_face_eq_empty env st bs hr hd hf]
  · rw [hcase] at hf
    rw [identify_face_eq_empty_first env st bs rest hr hd hf]

/-- Witness for C5 on an empty `DeepFace.find` result. -/
theorem c5_witness :
    (identify_face ⟨.ok [3], .ok (), some [1], .ok []⟩ ⟨[], []⟩).2
      = .httpError 404 noMatchDetail :=
  c5_identify_no_candidates_404 _ ⟨[], []⟩ [3] [] rfl rfl rfl (Or.inl rfl)

/-- C6: every handler call produces a response — success, the deliberate
404, or an `HTTPException` 500 — and whenever some step of the handler
body raises an exception (other than the deliberate no-match signal), the
handler catches it and surfaces the generic 500 failure response. -/
theorem c6_exceptions_surfaced_as_500 (envR : RegisterEnv) (stR : DBState)
    (user_id : String) (envI : IdentifyEnv) (stI : DBState) :
    ((register_face envR stR user_id).2 = .success user_id ∨
      ∃ e, (register_face envR stR user_id).2
        = .httpError 500 (registerErrDetail e)) ∧
    ((∃ v, (identify_face envI stI).2 = .matchFound v) ∨
      (identify_face envI stI).2 = .httpError 404 noMatchDetail ∨
      ∃ e, (identify_face envI stI).2
        = .httpError 500 (identifyErrDetail e)) ∧
    (registerRaises envR stR user_id →
      ∃ e, (register_face envR stR user_id).2
        = .httpError 500 (registerErrDetail e)) ∧
    (identifyRaises envI →
      ∃ e, (identify_face envI stI).2
        = .httpError 500 (identifyErrDetail e)) :=
  ⟨register_face_resp_cases envR stR user_id,
    identify_face_resp_cases envI stI,
    register_face_raises_500 envR stR user_id,
    identify_face_raises_500 envI stI⟩

/-- Witness for C6: a failing `os.makedirs` in Register and a failing
read in Identify both surface as 500 responses. -/
theorem c6_witness :
    (∃ e, (register_face ⟨some ⟨"disk full"⟩, .ok [], .ok (), [], none⟩
        ⟨[], []⟩ "alice").2 = .httpError 500 (registerErrDetail e)) ∧
    (∃ e, (identify_face ⟨.error ⟨"bad image"⟩, .ok (), none, .ok []⟩
        ⟨[], []⟩).2 = .httpError 500 (identifyErrDetail e)) :=
  ⟨(c6_exceptions_surfaced_as_500 ⟨some ⟨"disk full"⟩, .ok [], .ok (), [],
      none⟩ ⟨[], []⟩ "alice" ⟨.error ⟨"bad image"⟩, .ok (), none, .ok []⟩
      ⟨[], []⟩).2.2.1 (by left; decide),
    (c6_exceptions_surfaced_as_500 ⟨some ⟨"disk full"⟩, .ok [], .ok (), [],
      none⟩ ⟨[], []⟩ "alice" ⟨.error ⟨"bad image"⟩, .ok (), none, .ok []⟩
      ⟨[], []⟩).2.2.2 (by left; exact ⟨⟨"bad image"⟩, rfl⟩)⟩

/-- C9: `identify_face` never modifies the identity store: the directory
set is unchanged and every file other than the library's cache artifact
`representations_sface.pkl` has the same contents afterwards. -/
theorem c9_identify_preserves_store (env : IdentifyEnv) (st : DBState) :
    (identify_face env st).1.dirs = st.dirs ∧
    ∀ p : FPath, p ≠ [reprFile] →
      fsLookup (identify_face env st).1.files p = fsLookup st.files p := by
  obtain ⟨hdirs, hfiles⟩ := identify_face_state_cases env st
  refine ⟨hdirs, fun p hp => ?_⟩
  rcases hfiles with hf | ⟨b, hf⟩
  · rw [hf]
  · rw [hf, fsLookup_write_ne _ _ _ _ hp]

/-- Witness for C9: an identify call that rebuilds the cache leaves
alice's folder and reference image untouched. -/
theorem c9_witness :
    (identify_face ⟨.ok [5], .ok (), some [7], .ok []⟩
        ⟨[["alice"]], [(["alice", faceFile], [1])]⟩).1.dirs
      = (⟨[["alice"]], [(["alice", faceFile], [1])]⟩ : DBState).dirs ∧
    fsLookup (identify_face ⟨.ok [5], .ok (), some [7], .ok []⟩
        ⟨[["alice"]], [(["alice", faceFile], [1])]⟩).1.files
        ["alice", faceFile]
      = fsLookup (⟨[["alice"]], [(["alice", faceFile], [1])]⟩
          : DBState).files ["alice", faceFile] :=
  ⟨(c9_identify_preserves_store ⟨.ok [5], .ok (), some [7], .ok []⟩
      ⟨[["alice"]], [(["alice", faceFile], [1])]⟩).1,
    (c9_identify_preserves_store ⟨.ok [5], .ok (), some [7], .ok []⟩
      ⟨[["alice"]], [(["alice", faceFile], [1])]⟩).2 ["alice", faceFile]
      (by decide)⟩

/-- C10: a Register call for identity `A` leaves every other identity
`B ≠ A` untouched: `B`'s reference image has the same contents afterwards
and `B`'s folder still exists. -/
theorem c10_register_frame (env : RegisterEnv) (st : DBState)
    (A B : String) (hne : B ≠ A) :
    fsLookup (register_face env st A).1.files [B, faceFile]
      = fsLookup st.files [B, faceFile] ∧
    ([B] ∈ st.dirs → [B] ∈ (register_face env st A).1.dirs) := by
  obtain ⟨hdirs, hfiles⟩ := register_face_state_cases env st A
  constructor
  · have hBA : ([B, faceFile] : FPath) ≠ [A, faceFile] := by
      intro hh
      injection hh with hh1 _
      exact hne hh1
    have hBr : ([B, faceFile] : FPath) ≠ [reprFile] := by
      intro hh
      exact absurd (congrArg List.length hh) (by simp)
    rcases hfiles with hf | ⟨b, hf | hf⟩
    · rw [hf]
    · rw [hf, fsLookup_write_ne _ _ _ _ hBA]
    · rw [hf, fsLookup_remove_ne _ _ _ hBr, fsLookup_write_ne _ _ _ _ hBA]
  · intro hB
    rcases hdirs with hd | hd
    · rw [hd]; exact hB
    · rw [hd]; exact mem_insertDir_of_mem _ _ _ hB

/-- Witness for C10: registering alice leaves bob's record unchanged. -/
theorem c10_witness :
    fsLookup (register_face ⟨none, .ok [9], .ok (), [], none⟩
        ⟨[["bob"]], [(["bob", faceFile], [2])]⟩ "alice").1.files
        ["bob", faceFile]
      = fsLookup (⟨[["bob"]], [(["bob", faceFile], [2])]⟩ : DBState).files
          ["bob", faceFile] ∧
    (["bob"] ∈ (⟨[["bob"]], [(["bob", faceFile], [2])]⟩ : DBState).dirs →
      ["bob"] ∈ (register_face ⟨none, .ok [9], .ok (), [], none⟩
        ⟨[["bob"]], [(["bob", faceFile], [2])]⟩ "alice").1.dirs) :=
  c10_register_frame ⟨none, .ok [9], .ok (), [], none⟩
    ⟨[["bob"]], [(["bob", faceFile], [2])]⟩ "alice" "bob" (by decide)

/-- C1: every Register call that succeeds has stored the uploaded image
bytes at the deterministic path `DB_PATH/user_id/face.jpg` (with the
identity folder created), and its response is the success acknowledgement
carrying exactly the given `user_id`. -/
theorem c1_register_success_stores_image (env : RegisterEnv) (st : DBState)
    (user_id u : String)
    (hresp : (register_face env st user_id).2 = .success u) :
    u = user_id ∧
    ∃ contents, env.readResult = .ok contents ∧
      fsLookup (register_face env st user_id).1.files [user_id, faceFile]
        = some contents ∧
      [user_id] ∈ (register_face env st user_id).1.dirs := by
  obtain ⟨hu, contents, hr, hdirs, hfiles⟩ :=
    register_face_success_shape env st user_id u hresp
  refine ⟨hu, contents, hr, ?_, ?_⟩
  · rcases hfiles with hf | ⟨hf, _⟩
    · rw [hf, fsLookup_remove_ne _ _ _ (imagePath_ne_reprPath user_id),
        fsLookup_write_self]
    · rw [hf, fsLookup_write_self]
  · rw [hdirs]
    exact mem_insertDir_self st.dirs [user_id]

/-- Witness for C1 on a concrete successful registration. -/
theorem c1_witness :
    ("alice" : String) = "alice" ∧
    ∃ contents,
      (⟨none, .ok [9, 9], .ok (), [], none⟩ : RegisterEnv).readResult
        = .ok contents ∧
      fsLookup (register_face ⟨none, .ok [9, 9], .ok (), [], none⟩
          ⟨[], []⟩ "alice").1.files ["alice", faceFile] = some contents ∧
      ["alice"] ∈ (register_face ⟨none, .ok [9, 9], .ok (), [], none⟩
          ⟨[], []⟩ "alice").1.dirs :=
  c1_register_success_stores_image ⟨none, .ok [9, 9], .ok (), [], none⟩
    ⟨[], []⟩ "alice" "alice" (by decide)

/-- C3: after every successful Register call the cache artifact
`DB_PATH/representations_sface.pkl` does not exist — the handler deleted
it if it was present, and never creates it. -/
theorem c3_register_success_clears_cache (env : RegisterEnv) (st : DBState)
    (user_id u : String)
    (hresp : (register_face env st user_id).2 = .success u) :
    fsLookup (register_face env st user_id).1.files [reprFile] = none := by
  obtain ⟨_, contents, _, _, hfiles⟩ :=
    register_face_success_shape env st user_id u hresp
  rcases hfiles with hf | ⟨hf, hno⟩
  · rw [hf, fsLookup_remove_self]
  · rw [hf]
    exact fsLookup_eq_none_of_fsHas_false _ _ hno

/-- Witness for C3: registering over a store that holds a stale cache
file leaves no cache file behind. -/
theorem c3_witness :
    fsLookup (register_face ⟨none, .ok [1], .ok (), [], none⟩
        ⟨[], [([reprFile], [0])]⟩ "alice").1.files [reprFile] = none :=
  c3_register_success_clears_cache ⟨none, .ok [1], .ok (), [], none⟩
    ⟨[], [([reprFile], [0])]⟩ "alice" "alice" (by decide)

/-- C4: the at-most-one-reference-image invariant is preserved by every
sequence of Register and Identify operations, and a successful
re-registration overwrites the single image `face.jpg` with the newly
uploaded bytes rather than adding a second file to the folder. -/
theorem c4_at_most_one_reference_image (st : DBState) (ops : List Op)
    (env : RegisterEnv) (st2 : DBState) (uid u : String) (contents : Bytes)
    (hInv : InvOneImage st)
    (hresp : (register_face env st2 uid).2 = .success u)
    (hread : env.readResult = .ok contents) :
    InvOneImage (runOps st ops) ∧
    fsLookup (register_face env st2 uid).1.files [uid, faceFile]
      = some contents := by
  refine ⟨invOneImage_run st ops hInv, ?_⟩
  obtain ⟨_, cc, hr2, _, hfiles⟩ :=
    register_face_success_shape env st2 uid u hresp
  have hceq : cc = contents := by
    rw [hr2] at hread
    injection hread
  rw [hceq] at hfiles
  rcases hfiles with hf | ⟨hf, _⟩
  · rw [hf, fsLookup_remove_ne _ _ _ (imagePath_ne_reprPath uid),
      fsLookup_write_self]
  · rw [hf, fsLookup_write_self]

/-- Witness for C4: a register-then-identify sequence from the empty
store keeps the invariant, and re-registering alice stores the new
bytes. -/
theorem c4_witness :
    InvOneImage (runOps ⟨[], []⟩
      [Op.reg ⟨none, .ok [7], .ok (), [], none⟩ "alice",
        Op.ident ⟨.ok [5], .ok (), some [1], .ok []⟩]) ∧
    fsLookup (register_face ⟨none, .ok [8], .ok (), [], none⟩
        ⟨[["alice"]], [(["alice", faceFile], [7])]⟩ "alice").1.files
        ["alice", faceFile] = some [8] :=
  c4_at_most_one_reference_image ⟨[], []⟩
    [Op.reg ⟨none, .ok [7], .ok (), [], none⟩ "alice",
      Op.ident ⟨.ok [5], .ok (), some [1], .ok []⟩]
    ⟨none, .ok [8], .ok (), [], none⟩
    ⟨[["alice"]], [(["alice", faceFile], [7])]⟩ "alice" "alice" [8]
    (fun u s hs => by simp [fsLookup] at hs) (by decide) rfl

/-- C7 as frozen is falsified by an identity that is not a single path
component: the id `a/b` registers successfully, and even when the library
ranks its stored image (at the path Register built) first, Identify
reports `b`, not `a/b`. -/
theorem c7_counterexample :
    (register_face ⟨none, .ok [1], .ok (), [], none⟩ ⟨[], []⟩ "a/b").2
      = .success "a/b" ∧
    (identify_face
        ⟨.ok [2], .ok (), none,
          .ok [[⟨joinPath (joinPath "face_db_local" "a/b") faceFile⟩]]⟩
        (register_face ⟨none, .ok [1], .ok (), [], none⟩ ⟨[], []⟩
          "a/b").1).2
      = .matchFound "b" ∧
    IdentifyResponse.matchFound "b" ≠ .matchFound "a/b" := by
  decide

/-- C7 (amended): for every identity that is a single non-empty path
component, registering it and then identifying the same image returns
that identity, assuming the library ranks the stored image — at the path
Register built for it — first. -/
theorem c7_register_then_identify_roundtrip (dbPath : String)
    (envR : RegisterEnv) (st : DBState) (uid : String)
    (h1 : uid.data ≠ []) (h2 : sep ∉ uid.data)
    (_hreg : (register_face envR st uid).2 = .success uid)
    (envI : IdentifyEnv) (bs : Bytes) (row : DFRow) (rows : List DFRow)
    (rest : List (List DFRow)) (hr : envI.readResult = .ok bs)
    (hd : envI.decodeOutcome = .ok ())
    (hf : envI.findResult = .ok ((row :: rows) :: rest))
    (hrank : row.identity = joinPath (joinPath dbPath uid) faceFile) :
    (identify_face envI (register_face envR st uid).1).2
      = .matchFound uid := by
  have hbase : basename (dirname (joinPath (joinPath dbPath uid) faceFile))
      = uid := by
    show (⟨basenameL (dirnameL (joinOne (joinOne dbPath.data uid.data)
      faceFile.data))⟩ : String) = uid
    rw [extract_inverts_join dbPath.data uid.data faceFile.data h2 h1
      (by decide)]
  rw [identify_face_eq_match envI _ bs row rows rest hr hd hf, hrank, hbase]

/-- Witness for the amended C7 on the identity `alice`. -/
theorem c7_witness :
    (identify_face
        ⟨.ok [2], .ok (), none,
          .ok [[⟨joinPath (joinPath "face_db_local" "alice") faceFile⟩]]⟩
        (register_face ⟨none, .ok [1], .ok (), [], none⟩ ⟨[], []⟩
          "alice").1).2
      = .matchFound "alice" :=
  c7_register_then_identify_roundtrip "face_db_local"
    ⟨none, .ok [1], .ok (), [], none⟩ ⟨[], []⟩ "alice" (by decide)
    (by decide) (by decide)
    ⟨.ok [2], .ok (), none,
      .ok [[⟨joinPath (joinPath "face_db_local" "alice") faceFile⟩]]⟩
    [2] ⟨joinPath (joinPath "face_db_local" "alice") faceFile⟩ [] []
    rfl rfl rfl rfl
